import Mathlib

/-!
Verification of the Inverse-Meta meta-learning core.

This file gives a shallow embedding, over exact rationals, of the
hyperparameter-learning core of the repository:

* `metalearners/gradientlearner.py` (class `GBML`): the meta-gradient
  `_mle_grad`, the accumulation loop `_run_outer_step`, the projection and
  center-keep logic of `_opt_step`, the broadcast reshaping `_shape_c`,
  and the dataset initialisation `_init_dataset`;
* `utils_new/inner_loss_utils.py`: `log_cond_likelihood_loss`,
  `gradient_log_cond_likelihood` and `get_likelihood_grad`;
* `datasets/__init__.py`: `split_dataset`.

Tensors are modelled as total functions from (flat) indices to `ℚ`;
the shapes tracked by the Python code appear as explicit size parameters.
Fallible Python code (raised exceptions) is modelled with `Except String`.
-/

namespace InverseMeta

/-- Flat rank-1 tensors (and flattened images): entry `i` of the tensor. -/
abbrev Tensor1 := ℕ → ℚ

/-- Rank-2 tensors `[H, W]`: entry `(h, w)`. -/
abbrev Tensor2 := ℕ → ℕ → ℚ

/-- Batched flat tensors `[N, m]`: batch element `b`, entry `j`.  One real
component of the possibly complex measurement is tracked; the operations we
model act componentwise on real and imaginary parts. -/
abbrev BTensor := ℕ → ℕ → ℚ

/-- Measurement tensors `[N, C, H, W]` (batch, coil, row, column). -/
abbrev Tensor4 := ℕ → ℕ → ℕ → ℕ → ℚ

/-- Model of `torch.sign` on one entry: `-1`, `0` or `1`. -/
def qsign (q : ℚ) : ℚ := if q < 0 then -1 else if 0 < q then 1 else 0

/-- Model of `Tensor.clamp_(min=0., max=1.)` on one entry
(`gradientlearner.py` line 601). -/
def clamp01 (q : ℚ) : ℚ := max 0 (min 1 q)

/-- Python `int(...)` applied to a float: truncation toward zero
(`Int.div` rounds toward zero, and the denominator of a `ℚ` is positive). -/
def pyTrunc (q : ℚ) : ℤ := q.num.tdiv q.den

/-- Constructor test for `Except`, used to state that a modelled Python call
returned normally. -/
def isOkE {α : Type} (e : Except String α) : Bool :=
  match e with
  | .ok _ => true
  | .error _ => false

/-- Entry extraction from a fallible rank-1 tensor result (`0` on error). -/
def entryOf (e : Except String Tensor1) (k : ℕ) : ℚ :=
  match e with
  | .ok g => g k
  | .error _ => 0

/-- Entry extraction from a fallible batched tensor result (`0` on error). -/
def entryOfB (e : Except String BTensor) (b j : ℕ) : ℚ :=
  match e with
  | .ok g => g b j
  | .error _ => 0

/-! ## `GBML._shape_c` (`gradientlearner.py` lines 697-717)

Reshapes the deterministic hyperparameter `c` so that it broadcasts with
images and measurements.  `W` is `hparams.data.image_size`; a rank-2 result
is the function of (row, column).  The `random` pattern views the flat
vector as a `W × W` grid (`c.view(W, W)`), so entry `(i, j)` is flat entry
`i * W + j`.  Falling through both flag branches leaves the Python local
`c_shaped` unbound, which raises at the `return`; we model that as an
error as well. -/

def shape_c (mw ms : Bool) (pattern : String) (W : ℕ) (c : Tensor1) :
    Except String Tensor2 :=
  if mw then .ok (fun _ _ => c 0)
  else if ms then
    if pattern = "random" then .ok (fun i j => c (i * W + j))
    else if pattern = "horizontal" then .ok (fun i _ => c i)
    else if pattern = "vertical" then .ok (fun _ j => c j)
    else .error "This sample pattern is not supported!"
  else .error "UnboundLocalError: c_shaped"

/-! ## Soft thresholding (`gradientlearner.py` lines 581-588)

The three index masks `over_idx`, `mid_idx`, `under_idx` are all computed
from the tensor before any of the three in-place updates run, and the
updates are applied in source order (subtract, zero, add); the model below
reproduces exactly that sequence on each entry. -/

def soft_threshold (s : ℚ) (c : Tensor1) : Tensor1 := fun i =>
  let v0 := c i
  let v1 := if s < v0 then v0 - s else v0
  let v2 := if -s ≤ v0 ∧ v0 ≤ s then 0 else v1
  if v0 < -s then v2 + s else v2

/-- Unfolding of `soft_threshold` at one entry, with the three sequential
mask applications written out. -/
lemma soft_threshold_apply (s : ℚ) (c : Tensor1) (i : ℕ) :
    soft_threshold s c i =
      if c i < -s then
        (if -s ≤ c i ∧ c i ≤ s then 0 else if s < c i then c i - s else c i) + s
      else
        (if -s ≤ c i ∧ c i ≤ s then 0 else if s < c i then c i - s else c i) := rfl

/-- Claim C4: the soft projection applied after an optimizer step is the
proximal L1 shrinkage operator: entries with `|c i| ≤ s` become exactly `0`,
entries above `s` are decreased by `s`, entries below `-s` are increased by
`s` (`gradientlearner.py` lines 578-588). -/
theorem c4_soft_projection (s : ℚ) (c : Tensor1) (i : ℕ) (hs : 0 ≤ s) :
    (|c i| ≤ s → soft_threshold s c i = 0) ∧
    (s < c i → soft_threshold s c i = c i - s) ∧
    (c i < -s → soft_threshold s c i = c i + s) := by
  rw [soft_threshold_apply]
  refine ⟨fun h => ?_, fun h => ?_, fun h => ?_⟩
  · rcases abs_le.mp h with ⟨h1, h2⟩
    rw [if_neg (by linarith), if_pos ⟨h1, h2⟩]
  · have h1 : ¬(-s ≤ c i ∧ c i ≤ s) := by
      intro hc; linarith [hc.2]
    rw [if_neg (by linarith), if_neg h1, if_pos h]
  · have h1 : ¬ s < c i := by linarith
    have h2 : ¬(-s ≤ c i ∧ c i ≤ s) := by
      intro hc; linarith [hc.1]
    rw [if_pos h, if_neg h2, if_neg h1]

/-- Witness for C4 at a concrete input: with `s = 1` and an entry `1/2`,
the soft projection returns exactly `0`. -/
theorem c4_soft_projection_witness :
    (0 : ℚ) ≤ 1 ∧ soft_threshold 1 (fun _ => 1/2) 0 = 0 :=
  ⟨by norm_num, (c4_soft_projection 1 (fun _ => 1/2) 0 (by norm_num)).1
    (by norm_num [abs_le])⟩

/-! ## Hard thresholding (`gradientlearner.py` lines 590-596)

The code keeps the `scale`-fraction of entries with largest magnitude:
`k = int(numel * (1 - scale))`, `t = torch.kthvalue(abs(c), k)[0]` (the
`k`-th smallest magnitude, 1-indexed) and zeroes the entries with magnitude
strictly below `t`.  `torch.kthvalue` requires `1 ≤ k ≤ numel` and raises a
runtime error otherwise, which we model as an `Except.error`. -/

/-- Magnitudes of the first `n` entries of `c` (`torch.abs(self.c)`). -/
def absList (c : Tensor1) (n : ℕ) : List ℚ := (List.range n).map (fun i => |c i|)

/-- Model of `torch.kthvalue(l, k)[0]`: the `k`-th smallest entry of `l`,
1-indexed. -/
def kthSmallest (l : List ℚ) (k : ℕ) : ℚ := (l.insertionSort (· ≤ ·)).getD (k - 1) 0

/-- Zero every entry whose magnitude is strictly below the threshold `t`
(`self.c[under_idx] *= 0`). -/
def hard_apply (t : ℚ) (c : Tensor1) : Tensor1 := fun i => if |c i| < t then 0 else c i

/-- The hard-threshold projection of `_opt_step`
(`gradientlearner.py` lines 592-596). -/
def hard_threshold (s : ℚ) (n : ℕ) (c : Tensor1) : Except String Tensor1 :=
  let k : ℤ := pyTrunc ((n : ℚ) * (1 - s))
  if 1 ≤ k ∧ k ≤ (n : ℤ) then
    .ok (hard_apply (kthSmallest (absList c n) k.toNat) c)
  else .error "kthvalue(): selected number k out of range"

/-- Sorting commutes with mapping a monotone function over the list. -/
lemma insertionSort_map_monotone (f : ℚ → ℚ) (hf : Monotone f) (l : List ℚ) :
    (l.map f).insertionSort (· ≤ ·) = (l.insertionSort (· ≤ ·)).map f := by
  refine List.eq_of_perm_of_sorted (r := fun a b => a ≤ b)
    ((List.perm_insertionSort _ _).trans ((List.perm_insertionSort _ l).map f).symm)
    (List.sorted_insertionSort _ _)
    (List.Pairwise.map f (fun a b hab => hf hab) (List.sorted_insertionSort _ l))

/-- Taking the `k`-th smallest commutes with mapping a monotone function,
for an index in range. -/
lemma kthSmallest_map_monotone (f : ℚ → ℚ) (hf : Monotone f) (l : List ℚ)
    (k : ℕ) (hk1 : 1 ≤ k) (hk2 : k ≤ l.length) :
    kthSmallest (l.map f) k = f (kthSmallest l k) := by
  unfold kthSmallest
  rw [insertionSort_map_monotone f hf l]
  have hlen : k - 1 < (l.insertionSort (· ≤ ·)).length := by
    rw [List.length_insertionSort]
    omega
  rw [List.getD_eq_getElem _ _ (by simpa using hlen), List.getD_eq_getElem _ _ hlen,
    List.getElem_map]

/-- The `k`-th smallest entry of a list is one of its entries, for an index
in range. -/
lemma kthSmallest_mem (l : List ℚ) (k : ℕ) (hk1 : 1 ≤ k) (hk2 : k ≤ l.length) :
    kthSmallest l k ∈ l := by
  unfold kthSmallest
  have hlen : k - 1 < (l.insertionSort (· ≤ ·)).length := by
    rw [List.length_insertionSort]
    omega
  rw [List.getD_eq_getElem _ _ hlen]
  exact (List.perm_insertionSort _ l).mem_iff.mp (List.getElem_mem hlen)

/-- The pointwise hard-threshold map on magnitudes is monotone when the
threshold is nonnegative. -/
lemma hard_map_monotone (t : ℚ) (ht : 0 ≤ t) :
    Monotone (fun v : ℚ => if v < t then 0 else v) := by
  intro a b hab
  by_cases ha : a < t
  · by_cases hb : b < t
    · simp [ha, hb]
    · simp only [if_pos ha, if_neg hb]
      linarith [not_lt.mp hb]
  · have hb : ¬ b < t := by
      intro hbt; exact ha (lt_of_le_of_lt hab hbt)
    simp only [if_neg ha, if_neg hb]
    exact hab

/-- The magnitudes of a hard-thresholded tensor are the pointwise
hard-threshold map of the original magnitudes. -/
lemma absList_hard_apply (t : ℚ) (c : Tensor1) (n : ℕ) :
    absList (hard_apply t c) n = (absList c n).map (fun v => if v < t then 0 else v) := by
  unfold absList hard_apply
  rw [List.map_map]
  refine List.map_congr_left (fun i _ => ?_)
  by_cases h : |c i| < t
  · simp [h]
  · simp [h]

/-- Entries of `absList` are nonnegative. -/
lemma absList_nonneg (c : Tensor1) (n : ℕ) : ∀ v ∈ absList c n, 0 ≤ v := by
  intro v hv
  rcases List.mem_map.mp hv with ⟨i, _, rfl⟩
  exact abs_nonneg _

/-- Claim C5: the hard-threshold projection is idempotent — applying it a
second time with the same `scale` returns the once-projected tensor
unchanged (`gradientlearner.py` lines 590-596). -/
theorem c5_hard_idempotent (s : ℚ) (n : ℕ) (c c' : Tensor1)
    (h : hard_threshold s n c = .ok c') :
    hard_threshold s n c' = .ok c' := by
  unfold hard_threshold at h ⊢
  by_cases hk : 1 ≤ pyTrunc ((n : ℚ) * (1 - s)) ∧ pyTrunc ((n : ℚ) * (1 - s)) ≤ (n : ℤ)
  · rw [if_pos hk] at h ⊢
    set k : ℕ := (pyTrunc ((n : ℚ) * (1 - s))).toNat with hkdef
    have hk1 : 1 ≤ k := by omega
    have hk2 : k ≤ n := by omega
    set t : ℚ := kthSmallest (absList c n) k with htdef
    have hc' : c' = hard_apply t c := by
      have := h
      simp only [Except.ok.injEq] at this
      exact this.symm
    have htmem : t ∈ absList c n := by
      apply kthSmallest_mem
      · exact hk1
      · simpa [absList] using hk2
    have htnonneg : 0 ≤ t := absList_nonneg c n t htmem
    have ht' : kthSmallest (absList c' n) k = t := by
      rw [hc', absList_hard_apply,
        kthSmallest_map_monotone _ (hard_map_monotone t htnonneg) _ k hk1
          (by simpa [absList] using hk2)]
      simp
    rw [ht']
    congr 1
    funext i
    rw [hc']
    unfold hard_apply
    by_cases hci : |c i| < t
    · have htpos : (0 : ℚ) < t := lt_of_le_of_lt (abs_nonneg _) hci
      simp [hci, htpos]
    · simp [hci]
  · rw [if_neg hk] at h
    exact absurd h (by simp)

/-- Concrete tensor for the C5 witness: entries `1, 2, 3, 4`. -/
def wC5 : Tensor1 := fun i =>
  if i = 0 then 1 else if i = 1 then 2 else if i = 2 then 3 else 4

/-- Result of hard-thresholding `wC5` with `scale = 1/2` over 4 entries:
the `k = 2`-nd smallest magnitude is `2`, so the entry `1` is zeroed. -/
def wC5res : Tensor1 := fun i =>
  if i = 0 then 0 else if i = 1 then 2 else if i = 2 then 3 else 4

/-- Witness for C5: with `scale = 1/2` and 4 entries, the projection maps
`wC5` to `wC5res`, and projecting again returns `wC5res` unchanged. -/
theorem c5_hard_idempotent_witness :
    hard_threshold (1/2) 4 wC5 = .ok wC5res ∧
      hard_threshold (1/2) 4 wC5res = .ok wC5res := by
  have h : hard_threshold (1/2) 4 wC5 = .ok wC5res := by
    unfold hard_threshold
    have hq : ((4 : ℕ) : ℚ) * (1 - 1/2) = 2 := by norm_num
    simp only [hq]
    rw [if_pos (by decide)]
    congr 1
    have ht : kthSmallest (absList wC5 4) (pyTrunc 2).toNat = 2 := by decide
    funext i
    unfold hard_apply
    rw [ht]
    rcases i with _ | _ | _ | j
    · norm_num [wC5, wC5res, abs_lt]
    · norm_num [wC5, wC5res, abs_lt]
    · norm_num [wC5, wC5res, abs_lt]
    · have hj : j + 1 + 1 + 1 ≠ 2 := by omega
      have hj1 : j + 1 + 1 + 1 ≠ 0 := by omega
      have hj2 : j + 1 + 1 + 1 ≠ 1 := by omega
      norm_num [wC5, wC5res, abs_lt, hj, hj1, hj2]
  exact ⟨h, c5_hard_idempotent (1/2) 4 wC5 wC5res h⟩

/-- Claim C8: `_shape_c` supports exactly the scalar measurement-weighting
broadcast and the `random` / `horizontal` / `vertical` sample patterns, and
fails with the modelled configuration error for every other requested
sample pattern (`gradientlearner.py` lines 697-717). -/
theorem c8_shape_c_layouts (mw ms : Bool) (pattern : String) (W : ℕ) (c : Tensor1) :
    (mw = true → shape_c mw ms pattern W c = .ok (fun _ _ => c 0)) ∧
    (mw = false → ms = true → pattern = "random" →
      shape_c mw ms pattern W c = .ok (fun i j => c (i * W + j))) ∧
    (mw = false → ms = true → pattern = "horizontal" →
      shape_c mw ms pattern W c = .ok (fun i _ => c i)) ∧
    (mw = false → ms = true → pattern = "vertical" →
      shape_c mw ms pattern W c = .ok (fun _ j => c j)) ∧
    (mw = false → ms = true → pattern ≠ "random" → pattern ≠ "horizontal" →
      pattern ≠ "vertical" →
      shape_c mw ms pattern W c = .error "This sample pattern is not supported!") := by
  refine ⟨fun h => ?_, fun h1 h2 h3 => ?_, fun h1 h2 h3 => ?_,
    fun h1 h2 h3 => ?_, fun h1 h2 h3 h4 h5 => ?_⟩ <;>
    simp [shape_c, *]

/-! ## The post-update pipeline of `GBML._opt_step`
(`gradientlearner.py` lines 578-617, deterministic branch)

After `self.opt.step()` updates `c` in place, the code applies, in order:
the configured projection family (`soft` / `hard`, with any other family
except `l1` raising), an unconditional clamp of every entry to `[0, 1]`
(only when `reg_hyperparam` is set), and then — whenever
`measurement_selection` and `keep_center` are both set — an overwrite of
the central calibration lines with the value `1`.  The input `c` below is
the tensor as left by the raw optimizer step.  `numAcs` is
`num_acs_lines` and is assumed `≤ imageSize` so that the Python index
range `np.arange((W - numAcs) // 2, (W + numAcs) // 2)` is nonnegative. -/

/-- Projection plus clamp part of `_opt_step`
(`gradientlearner.py` lines 578-601). -/
def proj_clamp (rh : Bool) (regType : String) (regScale : ℚ) (n : ℕ)
    (c : Tensor1) : Except String Tensor1 :=
  if rh then
    (if regType = "soft" then .ok (soft_threshold regScale c)
     else if regType = "hard" then hard_threshold regScale n c
     else if regType ≠ "l1" then
       .error "This meta regularizer has not been implemented yet!"
     else .ok c).map (fun cp => fun i => clamp01 (cp i))
  else .ok c

/-- Center-keep part of `_opt_step` (`gradientlearner.py` lines 603-617).
For the `random` pattern the flat tensor is viewed as a `W × W` grid, the
central block is overwritten with `1` and the grid is flattened again, so
flat entry `k` lies in the block iff both `k / W` and `k % W` are central
indices. -/
def center_fix (ms kc : Bool) (pattern : String) (imageSize numAcs : ℕ)
    (c1 : Tensor1) : Tensor1 :=
  if ms && kc then
    let lo := (imageSize - numAcs) / 2
    let hi := (imageSize + numAcs) / 2
    if pattern = "random" then
      fun k => if lo ≤ k / imageSize ∧ k / imageSize < hi ∧
                  lo ≤ k % imageSize ∧ k % imageSize < hi then 1 else c1 k
    else if pattern = "horizontal" ∨ pattern = "vertical" then
      fun k => if lo ≤ k ∧ k < hi then 1 else c1 k
    else c1
  else c1

/-- Everything `_opt_step` does to `c` after the raw optimizer update
(`gradientlearner.py` lines 578-617, deterministic branch). -/
def opt_step_post (rh : Bool) (regType : String) (regScale : ℚ)
    (ms kc : Bool) (pattern : String) (imageSize numAcs n : ℕ)
    (c : Tensor1) : Except String Tensor1 :=
  (proj_clamp rh regType regScale n c).map
    (center_fix ms kc pattern imageSize numAcs)

/-- Flat index `k` lies in the central calibration region for the given
sample pattern (matching the index sets written by lines 605-617). -/
def in_center (pattern : String) (imageSize numAcs k : ℕ) : Bool :=
  let lo := (imageSize - numAcs) / 2
  let hi := (imageSize + numAcs) / 2
  if pattern = "random" then
    decide (lo ≤ k / imageSize ∧ k / imageSize < hi ∧
            lo ≤ k % imageSize ∧ k % imageSize < hi)
  else if pattern = "horizontal" ∨ pattern = "vertical" then
    decide (lo ≤ k ∧ k < hi)
  else false

/-- Claim C3: with measurement selection and `keep_center` enabled, every
entry of `c` inside the central calibration region equals exactly `1`
after `_opt_step`, regardless of what the preceding projection and
clamping did (`gradientlearner.py` lines 603-617). -/
theorem c3_center_keep (regType : String) (regScale : ℚ) (rh : Bool)
    (pattern : String) (imageSize numAcs n k : ℕ) (c : Tensor1)
    (hok : isOkE (opt_step_post rh regType regScale true true pattern
      imageSize numAcs n c) = true)
    (hk : in_center pattern imageSize numAcs k = true) :
    entryOf (opt_step_post rh regType regScale true true pattern
      imageSize numAcs n c) k = 1 := by
  unfold opt_step_post at hok ⊢
  rcases hpc : proj_clamp rh regType regScale n c with msg | c1
  · rw [hpc] at hok
    simp [Except.map, isOkE] at hok
  · show center_fix true true pattern imageSize numAcs c1 k = 1
    unfold center_fix
    unfold in_center at hk
    by_cases hrand : pattern = "random"
    · rw [if_pos hrand] at hk
      simp [hrand, of_decide_eq_true hk]
    · rw [if_neg hrand] at hk
      by_cases hhv : pattern = "horizontal" ∨ pattern = "vertical"
      · rw [if_pos hhv] at hk
        simp [hrand, hhv, of_decide_eq_true hk]
      · rw [if_neg hhv] at hk
        exact absurd hk (by simp)

/-- Witness for C3: image size 8 with 2 central lines, horizontal pattern,
no hyperparameter regularizer; entry 3 is central and is forced to 1. -/
theorem c3_center_keep_witness :
    isOkE (opt_step_post false "l1" 0 true true "horizontal" 8 2 8
      (fun _ => 1/3)) = true ∧
    entryOf (opt_step_post false "l1" 0 true true "horizontal" 8 2 8
      (fun _ => 1/3)) 3 = 1 :=
  ⟨rfl, c3_center_keep "l1" 0 false "horizontal" 8 2 8 3 (fun _ => 1/3)
    rfl (by decide)⟩

/-- Every output entry of the projection-plus-clamp stage lies in `[0, 1]`
when the regularizer flag is on. -/
lemma proj_clamp_mem_unit (regType : String) (regScale : ℚ) (n : ℕ)
    (c c1 : Tensor1) (h : proj_clamp true regType regScale n c = .ok c1) :
    ∀ k, 0 ≤ c1 k ∧ c1 k ≤ 1 := by
  intro k
  unfold proj_clamp at h
  rcases hinner : (if regType = "soft" then Except.ok (soft_threshold regScale c)
     else if regType = "hard" then hard_threshold regScale n c
     else if regType ≠ "l1" then
       Except.error "This meta regularizer has not been implemented yet!"
     else Except.ok c) with msg | cp
  · rw [if_pos rfl, hinner] at h
    exact absurd h (by simp [Except.map])
  · rw [if_pos rfl, hinner] at h
    simp only [Except.map, Except.ok.injEq] at h
    rw [← h]
    constructor
    · exact le_max_left 0 _
    · exact max_le (by norm_num) (min_le_left 1 _)

/-- Claim C9: with the hyperparameter regularizer enabled (whatever family
ran: `soft`, `hard` or `l1`), every entry of `c` lies in `[0, 1]` after
`_opt_step`, because the clamp on line 601 runs unconditionally after the
projection and the center overwrite writes `1` (`gradientlearner.py`
lines 578-617). -/
theorem c9_clamp_unit_interval (regType : String) (regScale : ℚ)
    (ms kc : Bool) (pattern : String) (imageSize numAcs n k : ℕ) (c : Tensor1)
    (hok : isOkE (opt_step_post true regType regScale ms kc pattern
      imageSize numAcs n c) = true) :
    0 ≤ entryOf (opt_step_post true regType regScale ms kc pattern
      imageSize numAcs n c) k ∧
    entryOf (opt_step_post true regType regScale ms kc pattern
      imageSize numAcs n c) k ≤ 1 := by
  unfold opt_step_post at hok ⊢
  rcases hpc : proj_clamp true regType regScale n c with msg | c1
  · rw [hpc] at hok
    simp [Except.map, isOkE] at hok
  · show 0 ≤ center_fix ms kc pattern imageSize numAcs c1 k ∧
      center_fix ms kc pattern imageSize numAcs c1 k ≤ 1
    have hbase := proj_clamp_mem_unit regType regScale n c c1 hpc
    unfold center_fix
    by_cases hmk : ms && kc
    · rw [if_pos hmk]
      by_cases hrand : pattern = "random"
      · rw [if_pos hrand]
        by_cases hc : ((imageSize - numAcs) / 2 ≤ k / imageSize ∧
            k / imageSize < (imageSize + numAcs) / 2 ∧
            (imageSize - numAcs) / 2 ≤ k % imageSize ∧
            k % imageSize < (imageSize + numAcs) / 2)
        · rw [if_pos hc]; norm_num
        · rw [if_neg hc]; exact hbase k
      · rw [if_neg hrand]
        by_cases hhv : pattern = "horizontal" ∨ pattern = "vertical"
        · rw [if_pos hhv]
          by_cases hc : ((imageSize - numAcs) / 2 ≤ k ∧
              k < (imageSize + numAcs) / 2)
          · rw [if_pos hc]; norm_num
          · rw [if_neg hc]; exact hbase k
        · rw [if_neg hhv]; exact hbase k
    · rw [if_neg hmk]; exact hbase k

/-- Witness for C9: soft projection with scale 1/4 on an entry 2, followed
by the clamp; the result at entry 0 is 1 and lies in `[0, 1]`. -/
theorem c9_clamp_unit_interval_witness :
    isOkE (opt_step_post true "soft" (1/4) false false "horizontal" 8 2 8
      (fun _ => 2)) = true ∧
    (0 ≤ entryOf (opt_step_post true "soft" (1/4) false false "horizontal" 8 2 8
      (fun _ => 2)) 0 ∧
     entryOf (opt_step_post true "soft" (1/4) false false "horizontal" 8 2 8
      (fun _ => 2)) 0 ≤ 1) :=
  ⟨rfl, c9_clamp_unit_interval "soft" (1/4) false false "horizontal" 8 2 8 0
    (fun _ => 2) rfl⟩

/-! ## The accumulation loop of `GBML._run_outer_step`
(`gradientlearner.py` lines 240-291)

Per training batch the loop adds the per-batch meta-gradient to the
accumulator, adds the batch size to `n_samples` and decrements the window
counter; when the counter reaches zero it divides the accumulator by
`n_samples`, hands the result to `_opt_step`, and resets all three.  A
batch is modelled as the pair of its meta-gradient (`_mle_grad` output)
and its size (`x.shape[0]`); the emitted list below collects, in order,
the gradients handed to `_opt_step`. -/

/-- Accumulator state of `_run_outer_step`: `meta_grad`, `n_samples`,
`num_batches`. -/
structure OuterState where
  metaGrad : Tensor1
  nSamples : ℕ
  numBatches : ℤ

/-- Re-initialisation of `num_batches` from `batches_per_iter`
(`gradientlearner.py` lines 249-251 and 279-281). -/
def adjust_num_batches (bpi : ℤ) (loaderLen : ℕ) : ℤ :=
  if bpi < 0 ∨ (loaderLen : ℤ) < bpi then (loaderLen : ℤ) else bpi

/-- One loop body iteration of `_run_outer_step` (lines 255-281): returns
the new state and the gradient handed to `_opt_step`, if any. -/
def outer_batch_step (bpi : ℤ) (loaderLen : ℕ) (s : OuterState)
    (g : Tensor1) (bsz : ℕ) : OuterState × Option Tensor1 :=
  let mg : Tensor1 := fun i => s.metaGrad i + g i
  let ns : ℕ := s.nSamples + bsz
  let nb : ℤ := s.numBatches - 1
  if nb = 0 then
    (⟨fun _ => 0, 0, adjust_num_batches bpi loaderLen⟩,
     some (fun i => mg i / (ns : ℚ)))
  else (⟨mg, ns, nb⟩, none)

/-- The training loop over a list of batches, collecting the gradients
handed to `_opt_step`. -/
def outer_loop (bpi : ℤ) (loaderLen : ℕ) :
    List (Tensor1 × ℕ) → OuterState → List Tensor1
  | [], _ => []
  | b :: rest, s =>
    match outer_batch_step bpi loaderLen s b.1 b.2 with
    | (s', some gOut) => gOut :: outer_loop bpi loaderLen rest s'
    | (s', none) => outer_loop bpi loaderLen rest s'

/-- `_run_outer_step` (lines 247-254): initialise the accumulator and the
window counter and run the loop; `batches_per_iter = 0` returns at once. -/
def outer_run (bpi : ℤ) (loaderLen : ℕ) (batches : List (Tensor1 × ℕ)) :
    List Tensor1 :=
  if bpi = 0 then []
  else outer_loop bpi loaderLen batches
    ⟨fun _ => 0, 0, adjust_num_batches bpi loaderLen⟩

/-- Sum of the per-batch meta-gradients of a window. -/
def sum_grads (w : List (Tensor1 × ℕ)) : Tensor1 :=
  fun i => (w.map (fun b => b.1 i)).sum

/-- Total number of samples in a window (sum of the batch sizes). -/
def sum_sizes (w : List (Tensor1 × ℕ)) : ℕ := (w.map (fun b => b.2)).sum

/-- Completing a window (counter hits zero) emits the accumulated sum
divided by the accumulated sample count and resets the state. -/
lemma outer_batch_step_emit (bpi : ℤ) (loaderLen : ℕ) (mg : Tensor1)
    (ns : ℕ) (g : Tensor1) (bsz : ℕ) :
    outer_batch_step bpi loaderLen ⟨mg, ns, ((1 : ℕ) : ℤ)⟩ g bsz =
      (⟨fun _ => 0, 0, adjust_num_batches bpi loaderLen⟩,
       some (fun i => (mg i + g i) / ((ns + bsz : ℕ) : ℚ))) := by
  unfold outer_batch_step
  norm_num

/-- A mid-window iteration (counter stays positive) just accumulates. -/
lemma outer_batch_step_acc (bpi : ℤ) (loaderLen : ℕ) (mg : Tensor1)
    (ns m : ℕ) (g : Tensor1) (bsz : ℕ) (hm : 1 ≤ m) :
    outer_batch_step bpi loaderLen ⟨mg, ns, ((m + 1 : ℕ) : ℤ)⟩ g bsz =
      (⟨fun i => mg i + g i, ns + bsz, ((m : ℕ) : ℤ)⟩, none) := by
  unfold outer_batch_step
  have hnz : ¬(((m + 1 : ℕ) : ℤ) - 1 = 0) := by push_cast; omega
  rw [if_neg hnz]
  have hm1 : ((m + 1 : ℕ) : ℤ) - 1 = ((m : ℕ) : ℤ) := by push_cast; ring
  rw [hm1]

/-- Running the loop through one full window (length = current counter)
emits exactly the accumulated sum divided by the accumulated sample count
and continues on the rest from the reset state. -/
lemma outer_loop_window (bpi : ℤ) (loaderLen : ℕ) :
    ∀ (w rest : List (Tensor1 × ℕ)) (mg : Tensor1) (ns : ℕ), w ≠ [] →
    outer_loop bpi loaderLen (w ++ rest) ⟨mg, ns, (w.length : ℤ)⟩ =
      (fun i => (mg i + sum_grads w i) / ((ns + sum_sizes w : ℕ) : ℚ)) ::
        outer_loop bpi loaderLen rest
          ⟨fun _ => 0, 0, adjust_num_batches bpi loaderLen⟩ := by
  intro w
  induction w with
  | nil => intro rest mg ns hne; exact absurd rfl hne
  | cons b w ih =>
    intro rest mg ns _
    rcases w with _ | ⟨b2, w2⟩
    · conv_lhs => rw [List.singleton_append, outer_loop]
      rw [show ((List.length [b] : ℕ) : ℤ) = ((1 : ℕ) : ℤ) from rfl]
      rw [outer_batch_step_emit bpi loaderLen mg ns b.1 b.2]
      show _ :: outer_loop bpi loaderLen rest _ = _
      congr 1
      funext i
      simp [sum_grads, sum_sizes]
    · have hne2 : b2 :: w2 ≠ [] := by simp
      conv_lhs => rw [List.cons_append, outer_loop]
      rw [show (((b :: b2 :: w2).length : ℕ) : ℤ) =
        (((b2 :: w2).length + 1 : ℕ) : ℤ) from by simp]
      rw [outer_batch_step_acc bpi loaderLen mg ns ((b2 :: w2).length) b.1 b.2
        (by simp)]
      show outer_loop bpi loaderLen ((b2 :: w2) ++ rest) _ = _
      rw [ih rest (fun i => mg i + b.1 i) (ns + b.2) hne2]
      congr 1
      funext i
      have h1 : (fun i => mg i + b.1 i) i + sum_grads (b2 :: w2) i =
          mg i + sum_grads (b :: b2 :: w2) i := by
        simp [sum_grads]
        ring
      have h2 : ns + b.2 + sum_sizes (b2 :: w2) = ns + sum_sizes (b :: b2 :: w2) := by
        simp [sum_sizes]
        omega
      rw [h1, h2]

/-- Claim C2 over a whole run: if the batch stream splits into consecutive
windows whose lengths all equal the (adjusted) `batches_per_iter`, then the
gradients handed to `_opt_step` are exactly, per window, the sum of that
window's per-batch meta-gradients divided by the total number of samples
of the window — not by its number of batches
(`gradientlearner.py` lines 247-281). -/
theorem c2_normalize_by_samples (bpi : ℤ) (loaderLen : ℕ)
    (windows : List (List (Tensor1 × ℕ)))
    (hlen : ∀ w ∈ windows, (w.length : ℤ) = adjust_num_batches bpi loaderLen)
    (hne : ∀ w ∈ windows, w ≠ [])
    (hbpi : bpi ≠ 0) :
    outer_run bpi loaderLen windows.flatten =
      windows.map (fun w => fun i => sum_grads w i / ((sum_sizes w : ℕ) : ℚ)) := by
  unfold outer_run
  rw [if_neg hbpi]
  induction windows with
  | nil => rfl
  | cons w ws ih =>
    rw [List.flatten_cons, List.map_cons]
    rw [show adjust_num_batches bpi loaderLen = ((w.length : ℤ)) from
      (hlen w (by simp)).symm]
    rw [outer_loop_window bpi loaderLen w ws.flatten (fun _ => 0) 0
      (hne w (by simp))]
    congr 1
    · funext i
      norm_num
    · exact ih (fun v hv => hlen v (by simp [hv])) (fun v hv => hne v (by simp [hv]))

/-- Witness for C2: two windows of two batches each, sizes 2 and 3; each
emitted gradient is the window's gradient sum divided by 5. -/
theorem c2_normalize_by_samples_witness :
    outer_run 2 4 ([[((fun _ => 1), 2), ((fun _ => 2), 3)],
      [((fun _ => 3), 2), ((fun _ => 5), 3)]] :
        List (List (Tensor1 × ℕ))).flatten =
      ([[((fun _ => 1), 2), ((fun _ => 2), 3)],
        [((fun _ => 3), 2), ((fun _ => 5), 3)]] :
          List (List (Tensor1 × ℕ))).map
        (fun w => fun i => sum_grads w i / ((sum_sizes w : ℕ) : ℚ)) := by
  apply c2_normalize_by_samples
  · intro w hw
    simp only [List.mem_cons, List.not_mem_nil, or_false] at hw
    rcases hw with rfl | rfl <;> rfl
  · intro w hw
    simp only [List.mem_cons, List.not_mem_nil, or_false] at hw
    rcases hw with rfl | rfl <;> simp
  · decide

/-! ## `GBML._mle_grad` (`gradientlearner.py` lines 627-681,
deterministic branch)

The Hessian-vector product `hvp` comes from `utils_new/meta_utils.py`,
which is not part of the sources here, and the forward operator `A`
(`MulticoilForwardMRINoMask`) and its adjoint (the
`view_as_real(sum(ifft(resid) * conj(s_maps), 1))` composite on lines
664-665) come from `problems/fourier_multicoil.py`, likewise absent; all
three are therefore abstract parameters of the model.  Images are flat
`Tensor1`s, measurements are `[N, C, H, W]` tensors.  The region of
interest, when configured, slices the meta-loss gradient; the slicing map
is abstracted as well since claim C1 only concerns `ROI = None`. -/

def mle_grad (hvp : Tensor1 → Tensor1 → Tensor1 → Tensor1)
    (A : Tensor1 → Tensor4) (Aadj : Tensor4 → Tensor1)
    (roi : Option (Tensor1 → Tensor1))
    (regType : String) (regScale : ℚ)
    (mw ms : Bool) (pattern : String) (W : ℕ)
    (c xhat x : Tensor1) (y : Tensor4) : Except String Tensor1 := do
  let gx : Tensor1 := fun i => xhat i - x i
  let grad_x_meta_loss : Tensor1 :=
    match roi with
    | some restrict => restrict gx
    | none => gx
  let grad_c_meta_loss : Tensor1 := fun i =>
    (if regType = "l1" then qsign (c i) else 0) * regScale
  let c_shaped ← shape_c mw ms pattern W c
  let resid : Tensor4 := fun b ch h w => c_shaped h w * (A xhat b ch h w - y b ch h w)
  let cond_log_grad : Tensor1 := Aadj resid
  let out_grad : Tensor1 := fun i =>
    0 - hvp c cond_log_grad grad_x_meta_loss i + grad_c_meta_loss i
  return out_grad

/-- Claim C1: in the deterministic path with no region of interest, the
per-batch meta-gradient equals the negated Hessian-vector product of `c`,
the adjoint of the shaped-`c`-weighted residual, and `x_hat - x`, plus the
analytic regularizer gradient, which is `sign(c) * reg_hyperparam_scale`
for the `l1` family and zero otherwise
(`gradientlearner.py` lines 627-681). -/
theorem c1_mle_grad_sign (hvp : Tensor1 → Tensor1 → Tensor1 → Tensor1)
    (A : Tensor1 → Tensor4) (Aadj : Tensor4 → Tensor1)
    (regType : String) (regScale : ℚ) (mw ms : Bool) (pattern : String)
    (W : ℕ) (c xhat x : Tensor1) (y : Tensor4) (cs : Tensor2)
    (hcs : shape_c mw ms pattern W c = .ok cs) :
    mle_grad hvp A Aadj none regType regScale mw ms pattern W c xhat x y =
      .ok (fun i =>
        -(hvp c
            (Aadj (fun b ch h w => cs h w * (A xhat b ch h w - y b ch h w)))
            (fun j => xhat j - x j) i) +
        (if regType = "l1" then qsign (c i) * regScale else 0)) := by
  unfold mle_grad
  rw [hcs]
  show Except.ok _ = _
  congr 1
  funext i
  rw [zero_sub]
  congr 1
  by_cases h : regType = "l1" <;> simp [h]

/-- Concrete abstract-operator instances for the C1 witness. -/
def wHvp : Tensor1 → Tensor1 → Tensor1 → Tensor1 :=
  fun c u v => fun i => c i * u i + v i

/-- Concrete forward operator for the C1 witness. -/
def wFwd : Tensor1 → Tensor4 := fun img => fun b _ _ _ => img b

/-- Concrete adjoint for the C1 witness. -/
def wAdj : Tensor4 → Tensor1 := fun m => fun i => m i i i i

/-- Witness for C1 at a concrete input (measurement weighting, scalar `c`):
the shaping succeeds and the meta-gradient has the claimed closed form. -/
theorem c1_mle_grad_sign_witness :
    shape_c true false "none" 1 (fun _ => 2) = .ok (fun _ _ => (2 : ℚ)) ∧
    mle_grad wHvp wFwd wAdj none "l1" (1/2) true false "none" 1
      (fun _ => 2) (fun _ => 3) (fun _ => 1) (fun _ _ _ _ => 4) =
      .ok (fun i =>
        -(wHvp (fun _ => 2)
            (wAdj (fun b ch h w => (fun _ _ => (2 : ℚ)) h w *
              (wFwd (fun _ => 3) b ch h w - (fun _ _ _ _ => (4 : ℚ)) b ch h w)))
            (fun j => (fun _ => (3 : ℚ)) j - (fun _ => (1 : ℚ)) j) i) +
        (if "l1" = "l1" then qsign ((fun _ => (2 : ℚ)) i) * (1/2) else 0)) :=
  ⟨rfl, c1_mle_grad_sign wHvp wFwd wAdj "l1" (1/2) true false "none" 1
    (fun _ => 2) (fun _ => 3) (fun _ => 1) (fun _ _ _ _ => 4)
    (fun _ _ => (2 : ℚ)) rfl⟩

/-! ## `utils_new/inner_loss_utils.py`

The hyperparameter `c_orig` is a tensor of arbitrary rank; the code
dispatches on `c_type = len(c_orig.shape)`.  We model it as a shape list
plus flat data.  The forward operator is the linear map of a matrix
`M : measurement index × image index → ℚ` applied per batch row, and
`A.adjoint` is multiplication by the transpose (`problems/fourier.py`
line 108).  Measurements `y` are fixed to the flat rank-2 layout `[N, m]`
(the non-`learn_samples` layout), so the rank-4 reshape on line 47 is not
taken and `reduce_dims = -1` sums over the measurement index, giving a
per-sample loss vector of length `N`.  `torch.exp` is an external
primitive and enters as the abstract parameter `expQ`. -/

/-- A tensor with an explicit shape: `shape.length` is the rank, `data`
the flattened entries. -/
structure PTensor where
  shape : List ℕ
  data : ℕ → ℚ

/-- Linear forward operator applied to each batch row:
`(A x)_{b,j} = sum_i M j i * x b i`. -/
def forwardA (M : ℕ → ℕ → ℚ) (n : ℕ) (x : BTensor) : BTensor :=
  fun b j => ∑ i in Finset.range n, M j i * x b i

/-- Adjoint of `forwardA` applied to each batch row:
`(Aᵀ v)_{b,i} = sum_j M j i * v b j` (`problems/fourier.py` line 108). -/
def adjointA (M : ℕ → ℕ → ℚ) (mdim : ℕ) (v : BTensor) : BTensor :=
  fun b i => ∑ j in Finset.range mdim, M j i * v b j

/-- The `exp_params` dispatch shared by the inner-loss functions: use
`torch.exp(c)` when `exp_params` is set, the raw `c` otherwise
(`inner_loss_utils.py` lines 15-18 and 42-45). -/
def cdOf (expQ : ℚ → ℚ) (expParams : Bool) (c : PTensor) : ℕ → ℚ :=
  if expParams then fun i => expQ (c.data i) else c.data

/-- Model of `gradient_log_cond_likelihood`
(`inner_loss_utils.py` lines 4-30): the explicitly-formed gradient of the
weighted l2 likelihood loss with respect to `x`.  Ranks other than 0 and 1
raise `NotImplementedError`. -/
def gradient_log_cond_likelihood (expQ : ℚ → ℚ) (M : ℕ → ℕ → ℚ)
    (mdim n : ℕ) (c : PTensor) (y : BTensor) (x : BTensor) (scale : ℚ)
    (expParams : Bool) : Except String BTensor :=
  let cType := c.shape.length
  let cd : ℕ → ℚ := cdOf expQ expParams c
  let resid : BTensor := fun b j => forwardA M n x b j - y b j
  if cType = 0 then
    .ok (fun b i => scale * cd 0 * adjointA M mdim resid b i)
  else if cType = 1 then
    .ok (fun b i => scale * adjointA M mdim (fun b' j => cd j * resid b' j) b i)
  else .error "Hyperparameter dimensions not supported"

/-- Model of `log_cond_likelihood_loss`
(`inner_loss_utils.py` lines 33-90): the per-sample weighted residual loss
(`reduce_dims = -1` sums over the measurement index).  Line 60 views
`resid` as the 2-D `[N, -1]` whatever the rank of `y`, so the
`learn_samples` reshape block (lines 69-75) indexes `resid.shape[3]`
(`'horizontal'`) or `resid.shape[2]` (`'vertical'`) on a 2-D shape tuple
and raises `IndexError` — before the rank dispatch, hence for every rank
of `c`; other `sample_pattern` values skip the reshape.  The two rank-1
dispatch branches of the source (lines 83-86) carry the same formula;
ranks other than 0 and 1 raise `NotImplementedError`. -/
def log_cond_likelihood_loss (expQ : ℚ → ℚ) (M : ℕ → ℕ → ℚ)
    (mdim n : ℕ) (c : PTensor) (y : BTensor) (x : BTensor) (scale : ℚ)
    (expParams learnSamples : Bool) (samplePattern : Option String) :
    Except String (ℕ → ℚ) :=
  let cType := c.shape.length
  let cd : ℕ → ℚ := cdOf expQ expParams c
  let resid : BTensor := fun b j => forwardA M n x b j - y b j
  if learnSamples = true ∧ (samplePattern = some "horizontal" ∨
      samplePattern = some "vertical") then
    .error "IndexError: tuple index out of range"
  else if cType = 0 then
    .ok (fun b => scale * cd 0 * (1/2) * ∑ j in Finset.range mdim, |resid b j| ^ 2)
  else if cType = 1 ∧ learnSamples = false then
    .ok (fun b => scale * (1/2) * ∑ j in Finset.range mdim, cd j * |resid b j| ^ 2)
  else if cType = 1 ∧ learnSamples = true then
    .ok (fun b => scale * (1/2) * ∑ j in Finset.range mdim, cd j * |resid b j| ^ 2)
  else .error "Hyperparameter dimensions not supported"

/-- Claim C6 counterexample input: a rank-2 (image-shaped) hyperparameter. -/
def wC2rank : PTensor := ⟨[2, 2], fun _ => 1⟩

/-- Counterexample to claim C6: a rank-2 hyperparameter makes both
`log_cond_likelihood_loss` and `gradient_log_cond_likelihood` raise
`NotImplementedError` (the final `else` of both dispatches,
`inner_loss_utils.py` lines 27-28 and 87-88), and even a rank-1
hyperparameter makes the loss raise `IndexError` when `learn_samples` is
set with a `'horizontal'` sample pattern (`resid.shape[3]` on the 2-D
`resid` of line 60) — instead of every rank up to 2 succeeding. -/
theorem c6_counterexample :
    isOkE (gradient_log_cond_likelihood (fun q => q) (fun _ _ => 1) 1 1
      wC2rank (fun _ _ => 0) (fun _ _ => 2) 1 false) = false ∧
    isOkE (log_cond_likelihood_loss (fun q => q) (fun _ _ => 1) 1 1
      wC2rank (fun _ _ => 0) (fun _ _ => 2) 1 false false none) = false ∧
    isOkE (log_cond_likelihood_loss (fun q => q) (fun _ _ => 1) 1 1
      (⟨[2], fun _ => 1⟩ : PTensor) (fun _ _ => 0) (fun _ _ => 2) 1 false
      true (some "horizontal")) = false := by
  refine ⟨rfl, rfl, rfl⟩

/-- Claim C6, amended: the explicit gradient succeeds exactly for
hyperparameters of rank 0 and rank 1, returning `scale * c * Aᵀ(A x - y)`
or `scale * Aᵀ(c ⊙ (A x - y))`, and rejects every rank of 2 or above with
`NotImplementedError`; the inner likelihood loss does the same whenever
its `learn_samples` reshape is not requested (`learn_samples` disabled, or
`sample_pattern` not `'horizontal'`/`'vertical'`), but with `learn_samples`
enabled and a `'horizontal'`/`'vertical'` sample pattern it raises
`IndexError` for every rank of `c`, because the reshape indexes
`resid.shape[3]`/`[2]` on the 2-D viewed residual
(`inner_loss_utils.py` lines 4-30, 60, 69-75 and 81-88). -/
theorem c6_rank_support (expQ : ℚ → ℚ) (M : ℕ → ℕ → ℚ) (mdim n : ℕ)
    (c : PTensor) (y x : BTensor) (scale : ℚ) (expParams learnSamples : Bool)
    (samplePattern : Option String) :
    (c.shape.length = 0 →
      gradient_log_cond_likelihood expQ M mdim n c y x scale expParams =
        .ok (fun b i => scale * (if expParams then expQ (c.data 0) else c.data 0) *
          adjointA M mdim (fun b' j => forwardA M n x b' j - y b' j) b i)) ∧
    (c.shape.length = 1 →
      gradient_log_cond_likelihood expQ M mdim n c y x scale expParams =
        .ok (fun b i => scale * adjointA M mdim
          (fun b' j => (if expParams then expQ (c.data j) else c.data j) *
            (forwardA M n x b' j - y b' j)) b i)) ∧
    (2 ≤ c.shape.length →
      gradient_log_cond_likelihood expQ M mdim n c y x scale expParams =
        .error "Hyperparameter dimensions not supported") ∧
    (¬(learnSamples = true ∧ (samplePattern = some "horizontal" ∨
        samplePattern = some "vertical")) →
      (c.shape.length = 0 →
        log_cond_likelihood_loss expQ M mdim n c y x scale expParams
            learnSamples samplePattern =
          .ok (fun b => scale * (if expParams then expQ (c.data 0) else c.data 0) *
            (1/2) * ∑ j in Finset.range mdim, |forwardA M n x b j - y b j| ^ 2)) ∧
      (c.shape.length = 1 →
        log_cond_likelihood_loss expQ M mdim n c y x scale expParams
            learnSamples samplePattern =
          .ok (fun b => scale * (1/2) * ∑ j in Finset.range mdim,
            (if expParams then expQ (c.data j) else c.data j) *
              |forwardA M n x b j - y b j| ^ 2)) ∧
      (2 ≤ c.shape.length →
        log_cond_likelihood_loss expQ M mdim n c y x scale expParams
            learnSamples samplePattern =
          .error "Hyperparameter dimensions not supported")) ∧
    (learnSamples = true →
      samplePattern = some "horizontal" ∨ samplePattern = some "vertical" →
      log_cond_likelihood_loss expQ M mdim n c y x scale expParams
          learnSamples samplePattern =
        .error "IndexError: tuple index out of range") := by
  refine ⟨fun h0 => ?_, fun h1 => ?_, fun h2 => ?_,
    fun hg => ⟨fun h0 => ?_, fun h1 => ?_, fun h2 => ?_⟩, fun hl hp => ?_⟩
  · unfold gradient_log_cond_likelihood
    rw [if_pos h0]
    congr 1
    funext b i
    by_cases he : expParams <;> simp [cdOf, he]
  · unfold gradient_log_cond_likelihood
    rw [if_neg (by omega), if_pos h1]
    congr 1
    funext b i
    by_cases he : expParams <;> simp [cdOf, he]
  · unfold gradient_log_cond_likelihood
    rw [if_neg (by omega), if_neg (by omega)]
  · unfold log_cond_likelihood_loss
    rw [if_neg hg, if_pos h0]
    congr 1
    funext b
    by_cases he : expParams <;> simp [cdOf, he]
  · unfold log_cond_likelihood_loss
    rw [if_neg hg]
    rcases Bool.eq_false_or_eq_true learnSamples with hl | hl
    · rw [if_neg (by omega), if_neg (by simp [hl]), if_pos ⟨h1, hl⟩]
      congr 1
      funext b
      by_cases he : expParams <;> simp [cdOf, he]
    · rw [if_neg (by omega), if_pos ⟨h1, hl⟩]
      congr 1
      funext b
      by_cases he : expParams <;> simp [cdOf, he]
  · unfold log_cond_likelihood_loss
    rw [if_neg hg, if_neg (by omega), if_neg (fun hc => by omega),
      if_neg (fun hc => by omega)]
  · unfold log_cond_likelihood_loss
    rw [if_pos ⟨hl, hp⟩]

/-- Witness for C6 (amended): at a concrete rank-0 hyperparameter the
explicit gradient succeeds with the closed adjoint form, and at a concrete
rank-1 hyperparameter the loss raises the modelled `IndexError` under
`learn_samples` with the `'horizontal'` pattern. -/
theorem c6_rank_support_witness :
    (gradient_log_cond_likelihood (fun q => q) (fun _ _ => 1) 1 1
      (⟨[], fun _ => 3⟩ : PTensor) (fun _ _ => 0) (fun _ _ => 2) 1 false =
      .ok (fun b i => 1 * (if false then (fun q => q) ((3 : ℚ)) else (3 : ℚ)) *
        adjointA (fun _ _ => 1) 1
          (fun b' j => forwardA (fun _ _ => 1) 1 (fun _ _ => 2) b' j -
            (fun _ _ => (0 : ℚ)) b' j) b i)) ∧
    log_cond_likelihood_loss (fun q => q) (fun _ _ => 1) 1 1
      (⟨[2], fun _ => 1⟩ : PTensor) (fun _ _ => 0) (fun _ _ => 2) 1 false
      true (some "horizontal") =
      .error "IndexError: tuple index out of range" :=
  ⟨(c6_rank_support (fun q => q) (fun _ _ => 1) 1 1 (⟨[], fun _ => 3⟩ : PTensor)
      (fun _ _ => 0) (fun _ _ => 2) 1 false false none).1 rfl,
   (c6_rank_support (fun q => q) (fun _ _ => 1) 1 1 (⟨[2], fun _ => 1⟩ : PTensor)
      (fun _ _ => 0) (fun _ _ => 2) 1 false true
      (some "horizontal")).2.2.2.2 rfl (Or.inl rfl)⟩

/-! ## `get_likelihood_grad` (`inner_loss_utils.py` lines 92-118)

The `use_autograd=True` path computes
`torch.autograd.grad(torch.mean(log_cond_likelihood_loss(...)), x)[0]`.
The reverse-mode gradient primitive is external (torch); we model it by
the exact gradient of the scalar map
`x ↦ (1/N) * sum_b loss_b(x)` — the loss is quadratic in `x`, and the
polarization lemmas below certify the model: the modelled gradient `g` is
the unique tensor with
`meanLoss(x+h) - meanLoss(x-h) = 2 * ⟨g, h⟩` for every direction `h`. -/

/-- Model of the autograd path of `get_likelihood_grad`: the gradient of
`torch.mean(log_cond_likelihood_loss(...))` with respect to `x`.  The
branch structure mirrors `log_cond_likelihood_loss`, including the
`IndexError` its `learn_samples` reshape raises (the crash happens while
the loss is evaluated, so the autograd call propagates it); the factor
`1/N` comes from `torch.mean` over the batch of `N` per-sample losses. -/
def autograd_mean_loss_grad (expQ : ℚ → ℚ) (M : ℕ → ℕ → ℚ)
    (mdim n N : ℕ) (c : PTensor) (y x : BTensor) (scale : ℚ)
    (expParams learnSamples : Bool) (samplePattern : Option String) :
    Except String BTensor :=
  let cType := c.shape.length
  let cd : ℕ → ℚ := cdOf expQ expParams c
  let resid : BTensor := fun b j => forwardA M n x b j - y b j
  if learnSamples = true ∧ (samplePattern = some "horizontal" ∨
      samplePattern = some "vertical") then
    .error "IndexError: tuple index out of range"
  else if cType = 0 then
    .ok (fun b i => (1/(N : ℚ)) * (scale * cd 0 * adjointA M mdim resid b i))
  else if cType = 1 ∧ learnSamples = false then
    .ok (fun b i => (1/(N : ℚ)) *
      (scale * adjointA M mdim (fun b' j => cd j * resid b' j) b i))
  else if cType = 1 ∧ learnSamples = true then
    .ok (fun b i => (1/(N : ℚ)) *
      (scale * adjointA M mdim (fun b' j => cd j * resid b' j) b i))
  else .error "Hyperparameter dimensions not supported"

/-- Model of `get_likelihood_grad` (`inner_loss_utils.py` lines 92-118):
dispatch between the autograd path and the explicitly-formed gradient.
Only the autograd path receives `learn_samples` and `sample_pattern`
(lines 107-112); the explicit path passes neither (line 116). -/
def get_likelihood_grad (expQ : ℚ → ℚ) (M : ℕ → ℕ → ℚ) (mdim n N : ℕ)
    (c : PTensor) (y x : BTensor) (useAutograd : Bool) (scale : ℚ)
    (expParams learnSamples : Bool) (samplePattern : Option String) :
    Except String BTensor :=
  if useAutograd then
    autograd_mean_loss_grad expQ M mdim n N c y x scale expParams
      learnSamples samplePattern
  else
    gradient_log_cond_likelihood expQ M mdim n c y x scale expParams

/-- Exchange of the adjoint sum against a direction: the dot product of
`Aᵀ u` with `v` equals the dot product of `u` with `A v`. -/
lemma adjoint_dot (M : ℕ → ℕ → ℚ) (mdim n : ℕ) (u v : ℕ → ℚ) :
    ∑ i in Finset.range n, (∑ j in Finset.range mdim, M j i * u j) * v i =
      ∑ j in Finset.range mdim, u j * ∑ i in Finset.range n, M j i * v i := by
  calc ∑ i in Finset.range n, (∑ j in Finset.range mdim, M j i * u j) * v i
      = ∑ i in Finset.range n, ∑ j in Finset.range mdim, M j i * u j * v i := by
        refine Finset.sum_congr rfl (fun i _ => ?_)
        rw [Finset.sum_mul]
    _ = ∑ j in Finset.range mdim, ∑ i in Finset.range n, M j i * u j * v i :=
        Finset.sum_comm
    _ = ∑ j in Finset.range mdim, u j * ∑ i in Finset.range n, M j i * v i := by
        refine Finset.sum_congr rfl (fun j _ => ?_)
        rw [Finset.mul_sum]
        exact Finset.sum_congr rfl (fun i _ => by ring)

/-- Polarization identity for the batch-mean of weighted quadratic losses:
the modelled gradient pairs with every direction `h` as half the
difference of the mean loss at `x + h` and at `x - h`. -/
lemma mean_polarization_weighted (mdim n N : ℕ) (s : ℚ) (w : ℕ → ℚ)
    (M : ℕ → ℕ → ℚ) (r h : ℕ → ℕ → ℚ) :
    (1/(N : ℚ)) * (∑ b in Finset.range N, s * (1/2) *
        ∑ j in Finset.range mdim,
          w j * |r b j + ∑ i in Finset.range n, M j i * h b i| ^ 2)
    - (1/(N : ℚ)) * (∑ b in Finset.range N, s * (1/2) *
        ∑ j in Finset.range mdim,
          w j * |r b j - ∑ i in Finset.range n, M j i * h b i| ^ 2)
    = 2 * ∑ b in Finset.range N, ∑ i in Finset.range n,
        ((1/(N : ℚ)) * (s * ∑ j in Finset.range mdim,
          M j i * (w j * r b j))) * h b i := by
  have hb : ∀ b ∈ Finset.range N,
      s * (1/2) * (∑ j in Finset.range mdim,
        w j * |r b j + ∑ i in Finset.range n, M j i * h b i| ^ 2)
      - s * (1/2) * (∑ j in Finset.range mdim,
        w j * |r b j - ∑ i in Finset.range n, M j i * h b i| ^ 2)
      = 2 * ∑ j in Finset.range mdim,
          s * (w j * (r b j * ∑ i in Finset.range n, M j i * h b i)) := by
    intro b _
    rw [← mul_sub, ← Finset.sum_sub_distrib]
    have hj : ∀ j ∈ Finset.range mdim,
        w j * |r b j + ∑ i in Finset.range n, M j i * h b i| ^ 2 -
          w j * |r b j - ∑ i in Finset.range n, M j i * h b i| ^ 2
        = w j * (4 * (r b j * ∑ i in Finset.range n, M j i * h b i)) := by
      intro j _
      rw [← mul_sub, sq_abs, sq_abs]
      ring_nf
    rw [Finset.sum_congr rfl hj, Finset.mul_sum, Finset.mul_sum]
    exact Finset.sum_congr rfl (fun j _ => by ring)
  have hU : ∀ b ∈ Finset.range N,
      ∑ i in Finset.range n, ((1/(N : ℚ)) * (s * ∑ j in Finset.range mdim,
        M j i * (w j * r b j))) * h b i
      = (1/(N : ℚ)) * ∑ j in Finset.range mdim,
          s * (w j * (r b j * ∑ i in Finset.range n, M j i * h b i)) := by
    intro b _
    calc ∑ i in Finset.range n, ((1/(N : ℚ)) * (s * ∑ j in Finset.range mdim,
          M j i * (w j * r b j))) * h b i
        = ((1/(N : ℚ)) * s) * ∑ i in Finset.range n,
            (∑ j in Finset.range mdim, M j i * (w j * r b j)) * h b i := by
          rw [Finset.mul_sum]
          exact Finset.sum_congr rfl (fun i _ => by ring)
      _ = ((1/(N : ℚ)) * s) * ∑ j in Finset.range mdim,
            (w j * r b j) * ∑ i in Finset.range n, M j i * h b i :=
          congrArg _ (adjoint_dot M mdim n (fun j => w j * r b j) (fun i => h b i))
      _ = (1/(N : ℚ)) * ∑ j in Finset.range mdim,
            s * (w j * (r b j * ∑ i in Finset.range n, M j i * h b i)) := by
          rw [Finset.mul_sum, Finset.mul_sum]
          exact Finset.sum_congr rfl (fun j _ => by ring)
  rw [← mul_sub, ← Finset.sum_sub_distrib, Finset.sum_congr rfl hb,
    Finset.sum_congr rfl hU, Finset.mul_sum, Finset.mul_sum]
  exact Finset.sum_congr rfl (fun b _ => by ring)

/-- Unweighted special case of the polarization identity (rank-0
hyperparameter). -/
lemma mean_polarization_plain (mdim n N : ℕ) (K : ℚ) (M : ℕ → ℕ → ℚ)
    (r h : ℕ → ℕ → ℚ) :
    (1/(N : ℚ)) * (∑ b in Finset.range N, K * (1/2) *
        ∑ j in Finset.range mdim,
          |r b j + ∑ i in Finset.range n, M j i * h b i| ^ 2)
    - (1/(N : ℚ)) * (∑ b in Finset.range N, K * (1/2) *
        ∑ j in Finset.range mdim,
          |r b j - ∑ i in Finset.range n, M j i * h b i| ^ 2)
    = 2 * ∑ b in Finset.range N, ∑ i in Finset.range n,
        ((1/(N : ℚ)) * (K * ∑ j in Finset.range mdim, M j i * r b j)) * h b i := by
  have hB := mean_polarization_weighted mdim n N K (fun _ => 1) M r h
  simpa only [one_mul] using hB

/-- The residual of the forward map at a shifted input splits linearly. -/
lemma resid_shift_add (M : ℕ → ℕ → ℚ) (n : ℕ) (x h y : BTensor) (b j : ℕ) :
    forwardA M n (fun b' i => x b' i + h b' i) b j - y b j =
      (forwardA M n x b j - y b j) + forwardA M n h b j := by
  unfold forwardA
  have hsp : ∀ i ∈ Finset.range n, M j i * ((fun b' i => x b' i + h b' i) b i) =
      M j i * x b i + M j i * h b i := fun i _ => by ring
  rw [Finset.sum_congr rfl hsp, Finset.sum_add_distrib]
  ring

/-- The residual of the forward map at a negatively shifted input. -/
lemma resid_shift_sub (M : ℕ → ℕ → ℚ) (n : ℕ) (x h y : BTensor) (b j : ℕ) :
    forwardA M n (fun b' i => x b' i - h b' i) b j - y b j =
      (forwardA M n x b j - y b j) - forwardA M n h b j := by
  unfold forwardA
  have hsm : ∀ i ∈ Finset.range n, M j i * ((fun b' i => x b' i - h b' i) b i) =
      M j i * x b i - M j i * h b i := fun i _ => by ring
  rw [Finset.sum_congr rfl hsm, Finset.sum_sub_distrib]
  ring

/-- Certification of the autograd model: for ranks 0 and 1 the losses at
`x ± h` and the modelled gradient all exist, and they satisfy the exact
polarization identity of the quadratic mean loss — so the model is the
true reverse-mode gradient of `torch.mean(log_cond_likelihood_loss)`. -/
lemma autograd_grad_certified (expQ : ℚ → ℚ) (M : ℕ → ℕ → ℚ)
    (mdim n N : ℕ) (c : PTensor) (y x h : BTensor) (scale : ℚ)
    (expParams learnSamples : Bool) (samplePattern : Option String)
    (hc : c.shape.length ≤ 1)
    (hg : ¬(learnSamples = true ∧ (samplePattern = some "horizontal" ∨
      samplePattern = some "vertical"))) :
    ∃ Lp Lm g,
      log_cond_likelihood_loss expQ M mdim n c y
        (fun b i => x b i + h b i) scale expParams learnSamples
        samplePattern = .ok Lp ∧
      log_cond_likelihood_loss expQ M mdim n c y
        (fun b i => x b i - h b i) scale expParams learnSamples
        samplePattern = .ok Lm ∧
      autograd_mean_loss_grad expQ M mdim n N c y x scale
        expParams learnSamples samplePattern = .ok g ∧
      (1/(N : ℚ)) * (∑ b in Finset.range N, Lp b) -
          (1/(N : ℚ)) * (∑ b in Finset.range N, Lm b) =
        2 * ∑ b in Finset.range N, ∑ i in Finset.range n, g b i * h b i := by
  have hfwd : ∀ (z : BTensor) (b j : ℕ), forwardA M n z b j =
      ∑ i in Finset.range n, M j i * z b i := fun z b j => rfl
  rcases Nat.le_one_iff_eq_zero_or_eq_one.mp hc with h0 | h1
  · refine ⟨fun b => scale * cdOf expQ expParams c 0 * (1/2) *
        ∑ j in Finset.range mdim,
          |forwardA M n (fun b' i => x b' i + h b' i) b j - y b j| ^ 2,
      fun b => scale * cdOf expQ expParams c 0 * (1/2) *
        ∑ j in Finset.range mdim,
          |forwardA M n (fun b' i => x b' i - h b' i) b j - y b j| ^ 2,
      fun b i => (1/(N : ℚ)) * (scale * cdOf expQ expParams c 0 *
        adjointA M mdim (fun b' j => forwardA M n x b' j - y b' j) b i),
      ?_, ?_, ?_, ?_⟩
    · simp only [log_cond_likelihood_loss]
      rw [if_neg hg, if_pos h0]
    · simp only [log_cond_likelihood_loss]
      rw [if_neg hg, if_pos h0]
    · simp only [autograd_mean_loss_grad]
      rw [if_neg hg, if_pos h0]
    · simp only [resid_shift_add, resid_shift_sub]
      simp only [adjointA, hfwd]
      exact mean_polarization_plain mdim n N _ M _ h
  · have hz : ¬ c.shape.length = 0 := by omega
    have hstep : log_cond_likelihood_loss expQ M mdim n c y
          (fun b i => x b i + h b i) scale expParams learnSamples
          samplePattern =
        .ok (fun b => scale * (1/2) * ∑ j in Finset.range mdim,
          cdOf expQ expParams c j *
            |forwardA M n (fun b' i => x b' i + h b' i) b j - y b j| ^ 2) ∧
        log_cond_likelihood_loss expQ M mdim n c y
          (fun b i => x b i - h b i) scale expParams learnSamples
          samplePattern =
        .ok (fun b => scale * (1/2) * ∑ j in Finset.range mdim,
          cdOf expQ expParams c j *
            |forwardA M n (fun b' i => x b' i - h b' i) b j - y b j| ^ 2) ∧
        autograd_mean_loss_grad expQ M mdim n N c y x scale
          expParams learnSamples samplePattern =
        .ok (fun b i => (1/(N : ℚ)) * (scale * adjointA M mdim
          (fun b' j => cdOf expQ expParams c j *
            (forwardA M n x b' j - y b' j)) b i)) := by
      rcases Bool.eq_false_or_eq_true learnSamples with hl | hl
      · refine ⟨?_, ?_, ?_⟩
        · simp only [log_cond_likelihood_loss]
          rw [if_neg hg, if_neg hz, if_neg (by simp [hl]), if_pos ⟨h1, hl⟩]
        · simp only [log_cond_likelihood_loss]
          rw [if_neg hg, if_neg hz, if_neg (by simp [hl]), if_pos ⟨h1, hl⟩]
        · simp only [autograd_mean_loss_grad]
          rw [if_neg hg, if_neg hz, if_neg (by simp [hl]), if_pos ⟨h1, hl⟩]
      · refine ⟨?_, ?_, ?_⟩
        · simp only [log_cond_likelihood_loss]
          rw [if_neg hg, if_neg hz, if_pos ⟨h1, hl⟩]
        · simp only [log_cond_likelihood_loss]
          rw [if_neg hg, if_neg hz, if_pos ⟨h1, hl⟩]
        · simp only [autograd_mean_loss_grad]
          rw [if_neg hg, if_neg hz, if_pos ⟨h1, hl⟩]
    refine ⟨_, _, _, hstep.1, hstep.2.1, hstep.2.2, ?_⟩
    simp only [resid_shift_add, resid_shift_sub]
    simp only [adjointA, hfwd]
    exact mean_polarization_weighted mdim n N _ _ M _ h

/-- Counterexample to claim C7: with a batch of size `N = 2`, scalar
`c = 1`, the identity operator on one measurement, `y = 0` and `x = 2`,
the autograd path returns `1` at entry `(0,0)` while the explicit path
returns `2` — the autograd path differentiates the batch *mean* of the
per-sample losses (`torch.mean` on line 107), the explicit gradient has no
`1/N` factor. -/
theorem c7_counterexample :
    entryOfB (get_likelihood_grad (fun q => q) (fun _ _ => 1) 1 1 2
      (⟨[], fun _ => 1⟩ : PTensor) (fun _ _ => 0) (fun _ _ => 2)
      true 1 false false none) 0 0 ≠
    entryOfB (get_likelihood_grad (fun q => q) (fun _ _ => 1) 1 1 2
      (⟨[], fun _ => 1⟩ : PTensor) (fun _ _ => 0) (fun _ _ => 2)
      false 1 false false none) 0 0 := by
  norm_num [get_likelihood_grad, autograd_mean_loss_grad,
    gradient_log_cond_likelihood, entryOfB, adjointA, forwardA, cdOf,
    Finset.sum_range_succ, Finset.sum_range_zero]

/-- Claim C7, amended: for hyperparameters of rank 0 or 1 with
`learn_samples` disabled, the two gradient paths of `get_likelihood_grad`
agree only up to the batch-mean factor — the autograd path returns the
explicitly-formed gradient divided by the batch size `N`; they coincide
exactly when `N = 1` (`inner_loss_utils.py` lines 92-118). -/
theorem c7_autograd_vs_explicit (expQ : ℚ → ℚ) (M : ℕ → ℕ → ℚ)
    (mdim n N : ℕ) (c : PTensor) (y x : BTensor) (scale : ℚ)
    (expParams : Bool) (samplePattern : Option String) (b i : ℕ)
    (hN : 1 ≤ N) (hc : c.shape.length ≤ 1) :
    entryOfB (get_likelihood_grad expQ M mdim n N c y x true scale
      expParams false samplePattern) b i =
    entryOfB (get_likelihood_grad expQ M mdim n N c y x false scale
      expParams false samplePattern) b i / (N : ℚ) := by
  have hgd : ¬((false = true) ∧ (samplePattern = some "horizontal" ∨
      samplePattern = some "vertical")) := by simp
  rcases Nat.le_one_iff_eq_zero_or_eq_one.mp hc with h0 | h1
  · unfold get_likelihood_grad autograd_mean_loss_grad
      gradient_log_cond_likelihood
    rw [if_pos rfl, if_neg hgd, if_neg (show ¬(false = true) from by simp)]
    rw [if_pos h0, if_pos h0]
    simp only [entryOfB]
    ring
  · have hz : ¬ c.shape.length = 0 := by omega
    unfold get_likelihood_grad autograd_mean_loss_grad
      gradient_log_cond_likelihood
    rw [if_pos rfl, if_neg hgd, if_neg (show ¬(false = true) from by simp)]
    rw [if_neg hz,
      if_pos (show c.shape.length = 1 ∧ false = false from ⟨h1, rfl⟩),
      if_neg hz, if_pos h1]
    simp only [entryOfB]
    ring

/-- Witness for the amended C7 at a concrete rank-0 input with `N = 2`. -/
theorem c7_autograd_vs_explicit_witness :
    entryOfB (get_likelihood_grad (fun q => q) (fun _ _ => 1) 1 1 2
      (⟨[], fun _ => 1⟩ : PTensor) (fun _ _ => 0) (fun _ _ => 2)
      true 1 false false none) 0 0 =
    entryOfB (get_likelihood_grad (fun q => q) (fun _ _ => 1) 1 1 2
      (⟨[], fun _ => 1⟩ : PTensor) (fun _ _ => 0) (fun _ _ => 2)
      false 1 false false none) 0 0 / ((2 : ℕ) : ℚ) :=
  c7_autograd_vs_explicit (fun q => q) (fun _ _ => 1) 1 1 2
    (⟨[], fun _ => 1⟩ : PTensor) (fun _ _ => 0) (fun _ _ => 2) 1 false
    none 0 0 (by norm_num) (by norm_num)

/-- Witness for C8: a concrete unsupported pattern request fails. -/
theorem c8_shape_c_layouts_witness :
    shape_c false true "radial" 4 (fun _ => 1) =
      .error "This sample pattern is not supported!" :=
  (c8_shape_c_layouts false true "radial" 4 (fun _ => 1)).2.2.2.2
    rfl rfl (by decide) (by decide) (by decide)

/-! ## `split_dataset` and `GBML._init_dataset`
(`datasets/__init__.py` lines 116-161, `gradientlearner.py` lines 683-695)

`split_dataset(base_dataset, hparams)` slices the index range of one base
dataset into train/val/test subsets.  `_init_dataset` however calls it as
`split_dataset(train_set, test_set, self.hparams)` with three positional
arguments.  Python binds positional arguments to parameters before any
body code runs, and a surplus argument raises `TypeError`; the call
protocol is modelled by a list of tagged arguments matched against the
function's two parameters. -/

/-- The split sizes `_init_dataset` reads from the configuration. -/
structure SplitHparams where
  numTrain : ℕ
  numVal : ℕ
  numTest : ℕ

/-- Index-range slicing of `split_dataset`
(`datasets/__init__.py` lines 136-161): the shuffle is commented out, so
the subsets are the leading consecutive index blocks. -/
def split_dataset {α : Type} (base : List α) (hp : SplitHparams) :
    List α × List α × List α :=
  let indices := List.range base.length
  let trainIdx := indices.take hp.numTrain
  let valIdx := (indices.drop hp.numTrain).take hp.numVal
  let testIdx := (indices.drop (hp.numTrain + hp.numVal)).take hp.numTest
  (trainIdx.filterMap (fun i => base.get? i),
   valIdx.filterMap (fun i => base.get? i),
   testIdx.filterMap (fun i => base.get? i))

/-- A positional argument of the modelled Python call: either a dataset or
the hyperparameter namespace. -/
inductive PyArg (α : Type) where
  | dataset (d : List α)
  | config (h : SplitHparams)

/-- Python-style call of `split_dataset`: the parameter list is
`(base_dataset, hparams)`, so exactly a dataset followed by a config binds;
any other argument list raises `TypeError` before the body runs. -/
def call_split_dataset {α : Type} (args : List (PyArg α)) :
    Except String (List α × List α × List α) :=
  match args with
  | [PyArg.dataset base, PyArg.config hp] => .ok (split_dataset base hp)
  | _ => .error "TypeError: split_dataset() takes 2 positional arguments but more were given"

/-- The call `_init_dataset` makes (`gradientlearner.py` line 685):
`split_dataset(train_set, test_set, self.hparams)` — three positional
arguments. -/
def init_dataset_split {α : Type} (trainSet testSet : List α)
    (hp : SplitHparams) : Except String (List α × List α × List α) :=
  call_split_dataset
    [PyArg.dataset trainSet, PyArg.dataset testSet, PyArg.config hp]

/-- Claim C10: every fresh construction of the meta-learner fails in
`_init_dataset`, because `split_dataset` is called with three positional
arguments while it is defined with exactly two parameters, so the call
raises `TypeError` for every configuration
(`gradientlearner.py` lines 683-695, `datasets/__init__.py` line 116). -/
theorem c10_init_dataset_type_error {α : Type} (trainSet testSet : List α)
    (hp : SplitHparams) :
    init_dataset_split trainSet testSet hp =
      .error "TypeError: split_dataset() takes 2 positional arguments but more were given" :=
  rfl

end InverseMeta
